import Mathlib

/-!
Verification of the BaumEvolutionAlgorithms repository (VEGA driver and base
population container) against its natural-language specification.

The repository provides two source files:
* `baumeva/vega.py` — the `VEGA` driver class (`__init__` and `optimize`);
* `baumeva/ga/populations/base_population.py` — the `BasePopulation` container.

Collaborators imported by `vega.py` (`MultiGaData`, the fitness / selection /
crossover / mutation / new-generation operators) are not part of the given
sources; where a claim depends on their behaviour they are modelled from the
spec, and such definitions carry a doc comment starting `Modelled from the
spec:`.  Everything else is a direct shallow embedding of the Python code.
-/

namespace Baumeva

/-! ## Dictionaries (Python `dict` with string keys and integer values)

Individuals in `BasePopulation` are plain Python dicts.  We model a dict as an
ordered association list, mirroring Python's insertion-ordered dicts:
`d[k] = v` overwrites the first binding of `k` in place, or appends a new
binding at the end; `d.keys()` is the list of keys in order. -/

abbrev Individ := List (String × Int)

/-- Python `d[k]` read access: the value of the first binding of `k`.  In
Python a missing key raises `KeyError`; the embedding is only used where the
key is present, and returns `0` on a missing key. -/
def dval (d : Individ) (k : String) : Int :=
  match d with
  | [] => 0
  | kv :: rest => if kv.1 == k then kv.2 else dval rest k

/-- Python `d[k] = v`: overwrite the binding of `k` in place if present,
otherwise append the new binding at the end (insertion order). -/
def dset (d : Individ) (k : String) (v : Int) : Individ :=
  match d with
  | [] => [(k, v)]
  | kv :: rest => if kv.1 == k then (kv.1, v) :: rest else kv :: dset rest k v

/-- Python `d.keys()` as a list, in insertion order. -/
def dkeys (d : Individ) : List String :=
  d.map Prod.fst

/-- Python `dict.fromkeys(ks)`: every key bound to `None` (modelled as
`Option.none`), keys in the given order. -/
def dict_fromkeys (ks : List String) : List (String × Option Int) :=
  ks.map (fun k => (k, none))

/-! ## BasePopulation (`base_population.py`)

`BasePopulation(ABC, list)` is a Python list of individuals with extra class
attributes.  We model it as a structure holding the underlying list plus those
attributes.  `set_params`, `fill` and `get_empty_copy` are abstract in this
file and are not modelled. -/

structure BasePopulation where
  individs : List Individ
  is_sorted : Bool
  num_individ : Option Nat
  gens : Option (List (Int × Int × Int))
  input_population : Option (List (List Int))
deriving DecidableEq

/-- The sort key of `sort_by_dict`: Python `list.sort(key=lambda d: d[key_dict],
reverse=reverse)` performs a stable sort, ascending on `d[key_dict]` when
`reverse` is false and descending when it is true (stability means equal keys
keep their original relative order in both cases). -/
def sortKeyLe (key_dict : String) (reverse : Bool) (a b : Individ) : Bool :=
  if reverse then decide (dval b key_dict ≤ dval a key_dict)
  else decide (dval a key_dict ≤ dval b key_dict)

/-- `BasePopulation.sort_by_dict(key_dict='score', reverse=False)`:
`self.sort(key=lambda d: d[key_dict], reverse=reverse)` (a stable sort,
embedded as a stable merge sort) followed by
`if key_dict == 'score': self.is_sorted = True` — the flag is only ever set,
never cleared. -/
def BasePopulation.sort_by_dict (p : BasePopulation) (key_dict : String)
    (reverse : Bool) : BasePopulation :=
  { p with
    individs := p.individs.mergeSort (sortKeyLe key_dict reverse)
    is_sorted := if key_dict == "score" then true else p.is_sorted }

/-- `BasePopulation.add_dict(**data)`: `self.append(data)`. -/
def BasePopulation.add_dict (p : BasePopulation) (data : Individ) : BasePopulation :=
  { p with individs := p.individs ++ [data] }

/-- Helper for `reset_idx_individ`: the loop
`i = 0; for individ in self: individ['idx_individ'] = i; i += 1`. -/
def resetIdxAux : Nat → List Individ → List Individ
  | _, [] => []
  | i, d :: ds => dset d "idx_individ" (Int.ofNat i) :: resetIdxAux (i + 1) ds

/-- `BasePopulation.reset_idx_individ()`. -/
def BasePopulation.reset_idx_individ (p : BasePopulation) : BasePopulation :=
  { p with individs := resetIdxAux 0 p.individs }

/-- `BasePopulation.get_empty_individ()`:
`dict.fromkeys(self[0].keys())` when the population is non-empty, else `None`.
The method only reads the population; the embedding is a pure function of `p`,
so the population itself is unchanged by construction. -/
def BasePopulation.get_empty_individ (p : BasePopulation) :
    Option (List (String × Option Int)) :=
  match p.individs with
  | [] => none
  | d :: _ => some (dict_fromkeys (dkeys d))

/-! ## The VEGA driver (`vega.py`)

`VEGA.optimize` wires together `MultiGaData`, a population, the fitness /
selection / crossover / mutation / new-generation operators, then runs the
main loop.  The operators and `MultiGaData` are not among the given sources;
the loop itself, the order in which the operators are invoked, the probe call
deriving `num_objectives`, and the `early_stop` defaulting in `__init__` are
all in `vega.py` and are embedded directly.  The state carried by `MultiGaData`
(`num_generation`, `num_generation_no_improve`, best-score tracking) and its
`update()` method are modelled from the spec. -/

/-- A phase of the driver: one `execute`/`update`/`fill` call made by
`VEGA.optimize`.  The run is recorded as the list of phases executed, in
order. -/
inductive Phase
  | fill
  | fitness
  | selection
  | crossover
  | mutation
  | newGeneration
  | update
deriving DecidableEq

/-- The value a Python objective function returns: a scalar, or an ordered
sequence of objective values. -/
inductive ObjResult
  | scalar (v : Int)
  | seq (vs : List Int)
deriving DecidableEq

/-- A user objective function.  Python callables have a number of required
positional parameters (`arity`); the driver's probe call always passes exactly
one argument (the gens list), so a two-argument function
`my_func(input_data, gens)` makes that call raise `TypeError`. `eval1` is the
value returned by the one-argument form. -/
structure ObjFunction where
  arity : Nat
  eval1 : List Int → ObjResult

/-- Calling `f(gens)` with a single positional argument: raises `TypeError`
unless the callable takes exactly one required argument. -/
def callWithGens (f : ObjFunction) (gens : List Int) : Except String ObjResult :=
  if f.arity == 1 then Except.ok (f.eval1 gens)
  else Except.error "TypeError: missing required positional argument"

/-- Python `len(r)`: defined for sequences, raises `TypeError` on a scalar. -/
def pyLen (r : ObjResult) : Except String Nat :=
  match r with
  | ObjResult.scalar _ => Except.error "TypeError: object of type int has no len"
  | ObjResult.seq vs => Except.ok vs.length

/-- The constructor arguments of `VEGA` that the embedded part of `optimize`
reads.  The remaining parameters (`obj_value`, `input_data`, `penalty`,
`is_gray`, `children_percent`, `input_population`, `tournament_size`,
`mutation_lvl`, `transfer_parents`, `is_print`) only configure the operators
that are outside the given sources, and are omitted. -/
structure VEGAConfig where
  num_generations : Nat
  num_individ : Nat
  gens : List (Int × Int × Int)
  obj_function : ObjFunction
  conditions : Option (List String)
  early_stop : Option Nat

/-- `VEGA.__init__` line
`self.early_stop = early_stop if early_stop is not None else num_generations`. -/
def effectiveEarlyStop (cfg : VEGAConfig) : Nat :=
  match cfg.early_stop with
  | some e => e
  | none => cfg.num_generations

/-- The first statement of `VEGA.optimize`:
`num_objectives = len(self.obj_function([0]*len(self.gens))) if self.conditions
is None else self.conditions.count('optimize')`.  When `conditions` is `None`
the objective function is probed once with the single argument `[0]*len(gens)`;
any `TypeError` from that probe propagates. -/
def numObjectivesResult (cfg : VEGAConfig) : Except String Nat :=
  match cfg.conditions with
  | some cs => Except.ok (cs.count "optimize")
  | none =>
      match callWithGens cfg.obj_function (List.replicate cfg.gens.length 0) with
      | Except.error e => Except.error e
      | Except.ok r => pyLen r

/-- Modelled from the spec: the scalar run state of `GaData`/`MultiGaData` —
"`num_generation` (current index), `num_generation_no_improve` (counter),
`early_stop` (threshold)" and "a record of the best individual seen across all
generations".  Only the best individual's score is kept, since that is all the
driver loop reads.  The population itself lives in the operators outside the
given sources; its effect on the run is abstracted by an oracle giving each
generation's best candidate score (see `runLoop`). -/
structure GaData where
  num_generations : Nat
  early_stop : Nat
  num_generation : Nat
  num_generation_no_improve : Nat
  best_score : Option Int
deriving DecidableEq

/-- Modelled from the spec: `GaData.update()` — "(b) compares the current best
score against the historical best using the run's optimization sense,
(c) increments `num_generation_no_improve` if no improvement, else resets it
to 0, (e) advances `num_generation`".  `current` is the best candidate score
of the generation just evaluated; an improvement is a strictly better
(here: strictly smaller) score, and the first update always improves since
there is no historical best yet.  Steps (a) and (d) (resort and truncate the
population) act on the population, which the driver-level model abstracts. -/
def GaData.update (g : GaData) (current : Int) : GaData :=
  let improved : Bool :=
    match g.best_score with
    | none => true
    | some b => decide (current < b)
  { num_generations := g.num_generations
    early_stop := g.early_stop
    num_generation := g.num_generation + 1
    num_generation_no_improve :=
      if improved then 0 else g.num_generation_no_improve + 1
    best_score := if improved then some current else g.best_score }

/-- One evolving step's effect on the `GaData` scalars: the
selection / crossover / mutation / new-generation / fitness phases produce the
generation's candidate best score (supplied by the oracle `bests`, indexed by
the generation number), and `ga_data.update()` folds it in. -/
def evolve (bests : Nat → Int) (g : GaData) : GaData :=
  g.update (bests g.num_generation)

/-- The state after `j` evolving steps (ignoring the break — the loop breaks
out, it never alters the update itself). -/
def iterState (bests : Nat → Int) (g0 : GaData) (j : Nat) : GaData :=
  (evolve bests)^[j] g0

/-- The phases of one iteration of the main loop of `VEGA.optimize`, in
source order: `selection.execute`, `cross.execute`, `mutation.execute`,
`new_generation.execute`, `fitness_func.execute`, `ga_data.update()`. -/
def evolvePhases : List Phase :=
  [Phase.selection, Phase.crossover, Phase.mutation, Phase.newGeneration,
   Phase.fitness, Phase.update]

/-- The phases run before the main loop of `VEGA.optimize`, in source order:
`population.fill()`, `fitness_func.execute`, `ga_data.update()`. -/
def initPhases : List Phase :=
  [Phase.fill, Phase.fitness, Phase.update]

/-- The main loop of `VEGA.optimize`:
`for i in range(1, ga_data.num_generations): ...execute phases...;
ga_data.update(); if ga_data.num_generation_no_improve > ga_data.early_stop:
break`.  `fuel` is the number of remaining loop indices
(`num_generations - 1` at entry).  Returns the final `GaData`, the number of
iterations executed, and the trace of phases run. -/
def runLoop (bests : Nat → Int) : Nat → GaData → GaData × Nat × List Phase
  | 0, g => (g, 0, [])
  | fuel + 1, g =>
      let g1 := evolve bests g
      if g1.early_stop < g1.num_generation_no_improve then (g1, 1, evolvePhases)
      else
        let r := runLoop bests fuel g1
        (r.1, r.2.1 + 1, evolvePhases ++ r.2.2)

/-- The `GaData` handed to the main loop: fresh counters (as constructed from
`num_generations`, `children_percent`, `early_stop`) after the first
`ga_data.update()` of the initial generation. -/
def initState (cfg : VEGAConfig) (bests : Nat → Int) : GaData :=
  GaData.update
    { num_generations := cfg.num_generations
      early_stop := effectiveEarlyStop cfg
      num_generation := 0
      num_generation_no_improve := 0
      best_score := none }
    (bests 0)

/-- The outcome of a `VEGA.optimize` run: final scalar state, number of
evolving iterations executed, and the full phase trace. -/
structure RunResult where
  final : GaData
  iters : Nat
  trace : List Phase
deriving DecidableEq

/-- `VEGA.optimize`: derive `num_objectives` (propagating any `TypeError`
from the probe call — this happens before any population is created), then
run the initial generation (`fill`, fitness, `update`) and the main loop. -/
def optimize (cfg : VEGAConfig) (bests : Nat → Int) : Except String RunResult :=
  match numObjectivesResult cfg with
  | Except.error e => Except.error e
  | Except.ok _ =>
      let r := runLoop bests (cfg.num_generations - 1) (initState cfg bests)
      Except.ok { final := r.1, iters := r.2.1, trace := initPhases ++ r.2.2 }

/-- The number of evolving iterations an `optimize` run executes. -/
def runIters (cfg : VEGAConfig) (bests : Nat → Int) : Except String Nat :=
  Except.map RunResult.iters (optimize cfg bests)

/-- The phase trace of an `optimize` run. -/
def runTrace (cfg : VEGAConfig) (bests : Nat → Int) : Except String (List Phase) :=
  Except.map RunResult.trace (optimize cfg bests)

/-- The final `num_generation_no_improve` counter of an `optimize` run. -/
def runNoImprove (cfg : VEGAConfig) (bests : Nat → Int) : Except String Nat :=
  Except.map (fun r => r.final.num_generation_no_improve) (optimize cfg bests)

/-! ## Lemmas about the dictionary and population operations -/

lemma dval_dset_self (d : Individ) (k : String) (v : Int) :
    dval (dset d k v) k = v := by
  induction d with
  | nil => simp [dset, dval]
  | cons kv rest ih =>
      cases h : kv.1 == k with
      | true => simp [dset, dval, h]
      | false => simp [dset, dval, h, ih]

lemma resetIdxAux_length (i : Nat) (ds : List Individ) :
    (resetIdxAux i ds).length = ds.length := by
  induction ds generalizing i with
  | nil => rfl
  | cons d ds ih => simp [resetIdxAux, ih]

lemma resetIdxAux_getD (ds : List Individ) (i j : Nat) (h : j < ds.length) :
    dval ((resetIdxAux i ds).getD j []) "idx_individ" = Int.ofNat (i + j) := by
  induction ds generalizing i j with
  | nil => simp at h
  | cons d ds ih =>
      cases j with
      | zero =>
          simpa [resetIdxAux] using dval_dset_self d "idx_individ" (Int.ofNat i)
      | succ j =>
          have h' : j < ds.length := by
            simpa using Nat.lt_of_succ_lt_succ h
          have hih := ih (i + 1) j h'
          have hrw : i + 1 + j = i + (j + 1) := by omega
          rw [hrw] at hih
          simpa [resetIdxAux] using hih

lemma sortKeyLe_trans (k : String) (r : Bool) (a b c : Individ)
    (hab : sortKeyLe k r a b = true) (hbc : sortKeyLe k r b c = true) :
    sortKeyLe k r a c = true := by
  cases r <;> simp [sortKeyLe] at hab hbc ⊢ <;> omega

lemma sortKeyLe_total (k : String) (r : Bool) (a b : Individ) :
    (sortKeyLe k r a b || sortKeyLe k r b a) = true := by
  cases r <;> simp [sortKeyLe] <;> omega

/-! ## Lemmas about the driver loop -/

lemma iterState_succ (bests : Nat → Int) (g0 : GaData) (j : Nat) :
    iterState bests g0 (j + 1) = iterState bests (evolve bests g0) j :=
  Function.iterate_succ_apply (evolve bests) j g0

lemma iterState_succ_outer (bests : Nat → Int) (g0 : GaData) (j : Nat) :
    iterState bests g0 (j + 1) = evolve bests (iterState bests g0 j) :=
  Function.iterate_succ_apply' (evolve bests) j g0

lemma update_early_stop (g : GaData) (c : Int) :
    (g.update c).early_stop = g.early_stop := rfl

lemma update_num_generation (g : GaData) (c : Int) :
    (g.update c).num_generation = g.num_generation + 1 := rfl

lemma iterState_early_stop (bests : Nat → Int) (g0 : GaData) (j : Nat) :
    (iterState bests g0 j).early_stop = g0.early_stop := by
  induction j with
  | zero => rfl
  | succ j ih => rw [iterState_succ_outer]; exact ih

lemma iterState_num_generation (bests : Nat → Int) (g0 : GaData) (j : Nat) :
    (iterState bests g0 j).num_generation = g0.num_generation + j := by
  induction j with
  | zero => rfl
  | succ j ih =>
      rw [iterState_succ_outer]
      show (iterState bests g0 j).num_generation + 1 = g0.num_generation + (j + 1)
      omega

lemma update_no_improve_le (g : GaData) (c : Int) :
    (g.update c).num_generation_no_improve ≤ g.num_generation_no_improve + 1 := by
  unfold GaData.update
  cases g.best_score with
  | none => simp
  | some b => by_cases hc : c < b <;> simp [hc]

lemma iterState_no_improve_le (bests : Nat → Int) (g0 : GaData) (j : Nat) :
    (iterState bests g0 j).num_generation_no_improve ≤
      g0.num_generation_no_improve + j := by
  induction j with
  | zero => exact Nat.le_refl _
  | succ j ih =>
      rw [iterState_succ_outer]
      calc (evolve bests (iterState bests g0 j)).num_generation_no_improve
          ≤ (iterState bests g0 j).num_generation_no_improve + 1 :=
            update_no_improve_le _ _
        _ ≤ g0.num_generation_no_improve + (j + 1) := by omega

lemma runLoop_iters_le (bests : Nat → Int) (fuel : Nat) (g : GaData) :
    (runLoop bests fuel g).2.1 ≤ fuel := by
  induction fuel generalizing g with
  | zero => exact Nat.le_refl _
  | succ fuel ih =>
      simp only [runLoop]
      split
      · dsimp only
        omega
      · dsimp only
        have := ih (evolve bests g)
        omega

lemma runLoop_break (bests : Nat → Int) (fuel : Nat) (g0 : GaData) (j : Nat)
    (hj : 1 ≤ j)
    (h : (iterState bests g0 j).early_stop <
          (iterState bests g0 j).num_generation_no_improve) :
    (runLoop bests fuel g0).2.1 ≤ j := by
  induction fuel generalizing g0 j with
  | zero => exact Nat.le_trans (Nat.zero_le _) hj
  | succ fuel ih =>
      simp only [runLoop]
      split
      · dsimp only
        omega
      · rename_i hnot
        dsimp only
        cases j with
        | zero => omega
        | succ j =>
            cases Nat.eq_zero_or_pos j with
            | inl hz =>
                subst hz
                rw [iterState_succ] at h
                exact absurd h hnot
            | inr hpos =>
                rw [iterState_succ] at h
                have := ih (evolve bests g0) j hpos h
                omega

lemma runLoop_full (bests : Nat → Int) (fuel : Nat) (g0 : GaData)
    (h : ∀ j, 1 ≤ j → j ≤ fuel →
      ¬ (iterState bests g0 j).early_stop <
          (iterState bests g0 j).num_generation_no_improve) :
    (runLoop bests fuel g0).2.1 = fuel := by
  induction fuel generalizing g0 with
  | zero => rfl
  | succ fuel ih =>
      simp only [runLoop]
      split
      · rename_i hbrk
        exact absurd hbrk (h 1 (Nat.le_refl 1) (by omega))
      · dsimp only
        rw [ih (evolve bests g0) (fun j hj hjf => by
          have hh := h (j + 1) (by omega) (by omega)
          rwa [iterState_succ] at hh)]

lemma runLoop_trace (bests : Nat → Int) (fuel : Nat) (g0 : GaData) :
    (runLoop bests fuel g0).2.2 =
      (List.replicate (runLoop bests fuel g0).2.1 evolvePhases).flatten := by
  induction fuel generalizing g0 with
  | zero => rfl
  | succ fuel ih =>
      simp only [runLoop]
      split
      · simp
      · dsimp only
        rw [ih (evolve bests g0)]
        simp [List.replicate_succ]

lemma initState_fields (cfg : VEGAConfig) (bests : Nat → Int) :
    (initState cfg bests).early_stop = effectiveEarlyStop cfg ∧
    (initState cfg bests).num_generation = 1 ∧
    (initState cfg bests).num_generation_no_improve = 0 ∧
    (initState cfg bests).best_score = some (bests 0) :=
  ⟨rfl, rfl, rfl, rfl⟩

lemma runIters_ok (cfg : VEGAConfig) (bests : Nat → Int) (k : Nat)
    (h : runIters cfg bests = Except.ok k) :
    k = (runLoop bests (cfg.num_generations - 1) (initState cfg bests)).2.1 := by
  unfold runIters optimize at h
  cases hno : numObjectivesResult cfg with
  | error e => rw [hno] at h; simp [Except.map] at h
  | ok n =>
      rw [hno] at h
      simp [Except.map] at h
      exact h.symm

lemma runTrace_ok (cfg : VEGAConfig) (bests : Nat → Int) (tr : List Phase)
    (h : runTrace cfg bests = Except.ok tr) :
    tr = initPhases ++ (runLoop bests (cfg.num_generations - 1) (initState cfg bests)).2.2 := by
  unfold runTrace optimize at h
  cases hno : numObjectivesResult cfg with
  | error e => rw [hno] at h; simp [Except.map] at h
  | ok n =>
      rw [hno] at h
      simp [Except.map] at h
      exact h.symm

lemma iterState_const_no_improve (bests : Nat → Int)
    (hconst : ∀ i, bests i = bests 0) (g0 : GaData)
    (hb : g0.best_score = some (bests 0)) (j : Nat) :
    (iterState bests g0 j).best_score = some (bests 0) ∧
    (iterState bests g0 j).num_generation_no_improve =
      g0.num_generation_no_improve + j := by
  induction j with
  | zero => exact ⟨hb, rfl⟩
  | succ j ih =>
      rw [iterState_succ_outer]
      obtain ⟨ihb, ihn⟩ := ih
      have hcur : bests (iterState bests g0 j).num_generation = bests 0 :=
        hconst _
      constructor
      · simp [evolve, GaData.update, ihb, hcur]
      · simp [evolve, GaData.update, ihb, hcur, ihn]
        omega

/-! ## Claim theorems: BasePopulation -/

/-- C5: `sort_by_dict` sorts the individuals by the named field — the result
is a permutation of the population; after sorting by `'score'` with
`reverse=False` the scores are non-decreasing in population order; and the
`is_sorted` flag of the result is set exactly when the key is `'score'` or
the flag was already set (so it is newly set only when sorting by
`'score'`). -/
theorem sort_by_dict_spec (p : BasePopulation) (key_dict : String) (reverse : Bool) :
    ((p.sort_by_dict key_dict reverse).individs.Perm p.individs) ∧
    ((p.sort_by_dict "score" false).individs.Pairwise
      (fun a b => dval a "score" ≤ dval b "score")) ∧
    ((p.sort_by_dict key_dict reverse).is_sorted = (key_dict == "score" || p.is_sorted)) := by
  refine ⟨List.mergeSort_perm _ _, ?_, ?_⟩
  · have hs := @List.sorted_mergeSort Individ (sortKeyLe "score" false)
      (sortKeyLe_trans "score" false) (sortKeyLe_total "score" false) p.individs
    refine List.Pairwise.imp ?_ hs
    intro a b hab
    simpa [sortKeyLe] using hab
  · cases h : key_dict == "score" <;>
      simp [BasePopulation.sort_by_dict, h]

/-- C6: after `reset_idx_individ()` the population has the same length, and
the `idx_individ` field of the individuals, read in iteration order, is
exactly the dense sequence `0, 1, ..., n-1`. -/
theorem reset_idx_individ_spec (p : BasePopulation) :
    (p.reset_idx_individ).individs.length = p.individs.length ∧
    ∀ j : Nat, j < p.individs.length →
      dval ((p.reset_idx_individ).individs.getD j []) "idx_individ" = Int.ofNat j := by
  constructor
  · exact resetIdxAux_length 0 p.individs
  · intro j hj
    simpa [BasePopulation.reset_idx_individ] using resetIdxAux_getD p.individs 0 j hj

/-- C6 witness: on a concrete two-individual population the indices read back
as `0` and `1`. -/
theorem reset_idx_individ_spec_witness :
    (1 < ([[("score", (7 : Int))], [("a", (3 : Int)), ("idx_individ", (9 : Int))]] :
        List Individ).length) ∧
    dval ((BasePopulation.mk [[("score", 7)], [("a", 3), ("idx_individ", 9)]]
        false none none none).reset_idx_individ.individs.getD 1 []) "idx_individ" =
      Int.ofNat 1 :=
  ⟨by decide,
   (reset_idx_individ_spec
     (BasePopulation.mk [[("score", 7)], [("a", 3), ("idx_individ", 9)]]
       false none none none)).2 1 (by decide)⟩

/-- C7: `get_empty_individ()` returns `None` on an empty population; on a
non-empty population it returns a record with the same field names (in order)
as the first individual — hence, under the documented shared-schema invariant,
as every individual — with every value `None`.  The method reads but never
writes the population (the embedding is a pure function of `p`). -/
theorem get_empty_individ_spec (p : BasePopulation) :
    (p.individs = [] → p.get_empty_individ = none) ∧
    (∀ d rest, p.individs = d :: rest →
      ∃ t, p.get_empty_individ = some t ∧
        t.map Prod.fst = dkeys d ∧ ∀ kv ∈ t, kv.2 = (none : Option Int)) := by
  constructor
  · intro h
    simp [BasePopulation.get_empty_individ, h]
  · intro d rest h
    refine ⟨dict_fromkeys (dkeys d), ?_, ?_, ?_⟩
    · simp [BasePopulation.get_empty_individ, h]
    · simp [dict_fromkeys, dkeys]
    · intro kv hkv
      simp [dict_fromkeys] at hkv
      obtain ⟨k, _, hk⟩ := hkv
      simp [← hk]

/-- C7 witness: on a concrete one-individual population the template has the
individual's keys and all-`None` values, and on the empty population the
method returns `None`. -/
theorem get_empty_individ_spec_witness :
    ((BasePopulation.mk [] false none none none).get_empty_individ = none) ∧
    ∃ t, (BasePopulation.mk [[("genotype", (5 : Int)), ("score", (2 : Int))]]
        false none none none).get_empty_individ = some t ∧
      t.map Prod.fst = dkeys [("genotype", 5), ("score", 2)] ∧
      ∀ kv ∈ t, kv.2 = (none : Option Int) :=
  ⟨(get_empty_individ_spec (BasePopulation.mk [] false none none none)).1 rfl,
   (get_empty_individ_spec (BasePopulation.mk
       [[("genotype", 5), ("score", 2)]] false none none none)).2
     [("genotype", 5), ("score", 2)] [] rfl⟩

/-- C8: `add_dict` appends exactly one record at the end: the length grows by
one, the new last element is the given record, the previously held prefix is
unchanged, and the other population attributes are untouched. -/
theorem add_dict_spec (p : BasePopulation) (data : Individ) :
    ((p.add_dict data).individs.length = p.individs.length + 1) ∧
    ((p.add_dict data).individs.getLast? = some data) ∧
    ((p.add_dict data).individs.take p.individs.length = p.individs) ∧
    ((p.add_dict data).is_sorted = p.is_sorted) := by
  refine ⟨by simp [BasePopulation.add_dict], ?_, ?_, rfl⟩
  · simp [BasePopulation.add_dict]
  · simp [BasePopulation.add_dict]

/-! ## Concrete runs used by witnesses and counterexamples -/

/-- A concrete objective function: one required argument, two objective
values, constant in the gens. -/
def objTwo : ObjFunction := ObjFunction.mk 1 (fun _ => ObjResult.seq [0, 0])

/-- A concrete objective function returning a scalar (no `len`). -/
def objScalarFive : ObjFunction := ObjFunction.mk 1 (fun _ => ObjResult.scalar 5)

/-- Run configuration with `early_stop=0`. -/
def cfgEarly0 : VEGAConfig :=
  VEGAConfig.mk 5 4 [(0, 7, 1)] objTwo (some ["optimize"]) (some 0)

/-- Run configuration with `early_stop=3` and `num_generations=10`. -/
def cfgEarly3 : VEGAConfig :=
  VEGAConfig.mk 10 4 [(0, 7, 1)] objTwo (some ["optimize"]) (some 3)

/-- Run configuration with `num_generations=2`. -/
def cfgTrace2 : VEGAConfig :=
  VEGAConfig.mk 2 4 [(0, 7, 1)] objTwo (some ["optimize"]) (some 5)

/-- Run configuration with a three-entry `conditions` list holding two
`'optimize'` tags. -/
def cfgCond : VEGAConfig :=
  VEGAConfig.mk 5 4 [(0, 7, 1)] objTwo (some ["optimize", "<=", "optimize"]) (some 10)

/-- Run configuration with `conditions=None`, so `num_objectives` comes from
the probe call. -/
def cfgProbe : VEGAConfig :=
  VEGAConfig.mk 5 4 [(0, 7, 1)] objTwo none (some 10)

/-- Run configuration with `conditions=None` and a scalar-returning objective
function. -/
def cfgScalar : VEGAConfig :=
  VEGAConfig.mk 5 4 [(0, 7, 1)] objScalarFive none (some 10)

/-- Run configuration with `early_stop=None` and `num_generations=6`. -/
def cfgNoEarly : VEGAConfig :=
  VEGAConfig.mk 6 4 [(0, 7, 1)] objTwo (some ["optimize"]) none

/-! ## Claim theorems: the driver loop -/

/-- C1: in every evolving step, after `ga_data.update()` the run stops as soon
as `num_generation_no_improve > early_stop` or the generation counter has
reached `num_generations`: if the state after the `j`-th evolving update
satisfies either condition, the run executes at most `j` evolving iterations,
so no further selection / crossover / mutation / new-generation / fitness
phase is executed. -/
theorem stop_conditions_end_run (cfg : VEGAConfig) (bests : Nat → Int) (k j : Nat)
    (hj : 1 ≤ j)
    (hcond : (iterState bests (initState cfg bests) j).early_stop <
               (iterState bests (initState cfg bests) j).num_generation_no_improve ∨
             (iterState bests (initState cfg bests) j).num_generation =
               cfg.num_generations)
    (hk : runIters cfg bests = Except.ok k) :
    k ≤ j := by
  rw [runIters_ok cfg bests k hk]
  cases hcond with
  | inl hbrk => exact runLoop_break bests _ _ j hj hbrk
  | inr hgen =>
      have hng : (iterState bests (initState cfg bests) j).num_generation =
          (initState cfg bests).num_generation + j :=
        iterState_num_generation _ _ _
      have h1 : (initState cfg bests).num_generation = 1 := rfl
      have hle := runLoop_iters_le bests (cfg.num_generations - 1) (initState cfg bests)
      omega

/-- C1 witness: with threshold `0` and a constant objective, the state after
the first evolving update has `num_generation_no_improve = 1 > 0`, and the run
executes exactly one evolving iteration. -/
theorem stop_conditions_end_run_witness :
    runIters cfgEarly0 (fun _ => 0) = Except.ok 1 ∧ (1 : Nat) ≤ 1 :=
  ⟨rfl, stop_conditions_end_run cfgEarly0 (fun _ => 0) 1 1 (Nat.le_refl 1)
    (Or.inl (by decide)) rfl⟩

/-- C2 counterexample: with `early_stop=3`, a constant objective and
`num_generations=10`, the loop executes 4 evolving generations, all of them
without improvement (the final no-improvement counter is 4): the run does not
terminate within 3 generations of no improvement. -/
theorem early_stop_three_counterexample :
    cfgEarly3.early_stop = some 3 ∧
    runIters cfgEarly3 (fun _ => 0) = Except.ok 4 ∧
    runNoImprove cfgEarly3 (fun _ => 0) = Except.ok 4 ∧
    ¬ (4 : Nat) ≤ 3 :=
  ⟨rfl, rfl, rfl, by decide⟩

/-- C2 (amended): with `early_stop=3` and a constant objective function the
loop terminates within `early_stop + 1 = 4` generations of no improvement,
for every value of `num_generations` — the break fires when the counter first
exceeds the threshold. -/
theorem early_stop_three_bounds_iterations (cfg : VEGAConfig) (bests : Nat → Int)
    (k : Nat) (hes : cfg.early_stop = some 3)
    (hconst : ∀ i, bests i = bests 0)
    (hk : runIters cfg bests = Except.ok k) :
    k ≤ 4 := by
  rw [runIters_ok cfg bests k hk]
  have hb : (initState cfg bests).best_score = some (bests 0) := rfl
  have h4 := iterState_const_no_improve bests hconst (initState cfg bests) hb 4
  have hes4 : (iterState bests (initState cfg bests) 4).early_stop = 3 := by
    rw [iterState_early_stop]
    show effectiveEarlyStop cfg = 3
    simp [effectiveEarlyStop, hes]
  refine runLoop_break bests _ _ 4 (by omega) ?_
  have h0 : (initState cfg bests).num_generation_no_improve = 0 := rfl
  rw [hes4, h4.2]
  omega

/-- C2 (amended) witness: the concrete `early_stop=3` constant-objective run
executes exactly 4 evolving iterations, within the proved bound. -/
theorem early_stop_three_bounds_iterations_witness :
    runIters cfgEarly3 (fun _ => 0) = Except.ok 4 ∧ (4 : Nat) ≤ 4 :=
  ⟨rfl, early_stop_three_bounds_iterations cfgEarly3 (fun _ => 0) 4 rfl
    (fun _ => rfl) rfl⟩

/-- C3: the phase trace of every successful run is the initial generation
(`fill`, fitness, `update`) followed by exactly one
selection → crossover → mutation → new-generation → fitness → `update`
block per evolving iteration, in that order. -/
theorem optimize_phase_order (cfg : VEGAConfig) (bests : Nat → Int)
    (k : Nat) (tr : List Phase)
    (hk : runIters cfg bests = Except.ok k)
    (htr : runTrace cfg bests = Except.ok tr) :
    tr = initPhases ++ (List.replicate k evolvePhases).flatten := by
  rw [runTrace_ok cfg bests tr htr, runLoop_trace,
    ← runIters_ok cfg bests k hk]

/-- C3 witness: a two-generation run traces the initial block followed by one
full evolving block. -/
theorem optimize_phase_order_witness :
    runIters cfgTrace2 (fun _ => 0) = Except.ok 1 ∧
    runTrace cfgTrace2 (fun _ => 0) = Except.ok
      [Phase.fill, Phase.fitness, Phase.update, Phase.selection, Phase.crossover,
       Phase.mutation, Phase.newGeneration, Phase.fitness, Phase.update] ∧
    [Phase.fill, Phase.fitness, Phase.update, Phase.selection, Phase.crossover,
       Phase.mutation, Phase.newGeneration, Phase.fitness, Phase.update] =
      initPhases ++ (List.replicate 1 evolvePhases).flatten :=
  ⟨rfl, rfl,
   optimize_phase_order cfgTrace2 (fun _ => 0) 1
     [Phase.fill, Phase.fitness, Phase.update, Phase.selection, Phase.crossover,
      Phase.mutation, Phase.newGeneration, Phase.fitness, Phase.update] rfl rfl⟩

/-- C4: `num_objectives` is the count of `'optimize'` tags in `conditions`
when conditions are supplied, and otherwise the length of the sequence
returned by the probe call `obj_function([0]*len(gens))`. -/
theorem num_objectives_derivation :
    (∀ cfg : VEGAConfig, ∀ cs : List String, cfg.conditions = some cs →
       numObjectivesResult cfg = Except.ok (cs.count "optimize")) ∧
    (∀ cfg : VEGAConfig, ∀ vs : List Int, cfg.conditions = none →
       callWithGens cfg.obj_function (List.replicate cfg.gens.length 0) =
         Except.ok (ObjResult.seq vs) →
       numObjectivesResult cfg = Except.ok vs.length) := by
  constructor
  · intro cfg cs h
    simp [numObjectivesResult, h]
  · intro cfg vs h hcall
    simp [numObjectivesResult, h, hcall, pyLen]

/-- C4 witness: a conditions list with two `'optimize'` tags gives
`num_objectives = 2`, and a probe call returning a two-element sequence also
gives `num_objectives = 2`. -/
theorem num_objectives_derivation_witness :
    numObjectivesResult cfgCond = Except.ok 2 ∧
    numObjectivesResult cfgProbe = Except.ok 2 :=
  ⟨num_objectives_derivation.1 cfgCond ["optimize", "<=", "optimize"] rfl,
   num_objectives_derivation.2 cfgProbe [0, 0] rfl rfl⟩

/-- C9: when `conditions` is `None`, the very first statement of `optimize`
probes the objective function once with the single argument `[0]*len(gens)`;
if the function requires two arguments or returns a scalar with no `len`,
the run fails with a `TypeError` (an `Except.error`): no population is
created and no evolution phase executes — an error result carries no phase
trace. -/
theorem probe_failure_stops_run (cfg : VEGAConfig) (bests : Nat → Int)
    (hc : cfg.conditions = none)
    (hbad : cfg.obj_function.arity = 2 ∨
      ∃ v, cfg.obj_function.eval1 (List.replicate cfg.gens.length 0) =
        ObjResult.scalar v) :
    ∃ e, optimize cfg bests = Except.error e := by
  have herr : ∃ e, numObjectivesResult cfg = Except.error e := by
    cases hbad with
    | inl h2 =>
        refine ⟨"TypeError: missing required positional argument", ?_⟩
        simp [numObjectivesResult, hc, callWithGens, h2]
    | inr hs =>
        obtain ⟨v, hv⟩ := hs
        cases ha : cfg.obj_function.arity == 1 with
        | true =>
            refine ⟨"TypeError: object of type int has no len", ?_⟩
            simp [numObjectivesResult, hc, callWithGens, ha, hv, pyLen]
        | false =>
            refine ⟨"TypeError: missing required positional argument", ?_⟩
            simp [numObjectivesResult, hc, callWithGens, ha]
  obtain ⟨e, he⟩ := herr
  exact ⟨e, by simp [optimize, he]⟩

/-- C9 witness: a scalar-returning objective function with `conditions=None`
makes the run fail before any evolution. -/
theorem probe_failure_stops_run_witness :
    ∃ e, optimize cfgScalar (fun _ => 0) = Except.error e :=
  probe_failure_stops_run cfgScalar (fun _ => 0) rfl (Or.inr ⟨5, rfl⟩)

/-- C10: `early_stop=None` in `__init__` replaces the threshold with
`num_generations`; the no-improvement counter can never exceed that within
the loop, so the break never fires and every successful run executes the full
`num_generations - 1` evolving iterations — early stopping is effectively
disabled and only the generation count bounds the loop. -/
theorem early_stop_none_disables_break (cfg : VEGAConfig) (bests : Nat → Int)
    (k : Nat) (hes : cfg.early_stop = none)
    (hk : runIters cfg bests = Except.ok k) :
    effectiveEarlyStop cfg = cfg.num_generations ∧ k = cfg.num_generations - 1 := by
  have heff : effectiveEarlyStop cfg = cfg.num_generations := by
    simp [effectiveEarlyStop, hes]
  refine ⟨heff, ?_⟩
  rw [runIters_ok cfg bests k hk]
  refine runLoop_full bests _ _ (fun j hj hjf => ?_)
  have h1 : (iterState bests (initState cfg bests) j).early_stop =
      cfg.num_generations := by
    rw [iterState_early_stop]
    exact heff
  have h2 := iterState_no_improve_le bests (initState cfg bests) j
  have h0 : (initState cfg bests).num_generation_no_improve = 0 := rfl
  omega

/-- C10 witness: with `early_stop=None` and `num_generations=6` a
constant-objective run still executes all 5 evolving iterations. -/
theorem early_stop_none_disables_break_witness :
    runIters cfgNoEarly (fun _ => 0) = Except.ok 5 ∧
    (effectiveEarlyStop cfgNoEarly = cfgNoEarly.num_generations ∧
      (5 : Nat) = cfgNoEarly.num_generations - 1) :=
  ⟨rfl, early_stop_none_disables_break cfgNoEarly (fun _ => 0) 5 rfl rfl⟩

end Baumeva
